import Mathlib

/-!
Verification of the asciipixels core engine against its specification.

The Python sources are shallowly embedded:
* Python values that flow through the dynamic-parameter machinery are
  modelled by `PyVal` (ints, floats as exact rationals, strings as char
  lists, 3-tuples, `None`).
* Python exceptions are modelled by `Except PyError`.
* Python floats are modelled as exact rational numbers (`ℚ`); the float
  literals 1.7, 1.5, 0.5 of the source become 17/10, 3/2, 1/2.
* External collaborators (ImageMagick text measuring, PIL pixel data) are
  passed in as explicit oracle arguments.
-/

/-- Python exception kinds raised by the embedded code.  `asciifier` carries
the message of an `AsciifierException`. -/
inductive PyError where
  | asciifier : String → PyError
  | indexError : PyError
  | typeError : String → PyError
  | valueError : String → PyError
  | zeroDivision : PyError
  deriving DecidableEq

/-- Python runtime values handled by the dynamic-parameter resolver:
integers, floats (exact rationals), strings (lists of characters),
3-tuples of integers (colors) and `None`. -/
inductive PyVal where
  | vint : Int → PyVal
  | vrat : ℚ → PyVal
  | vstr : List Char → PyVal
  | vtuple : Int → Int → Int → PyVal
  | vnone : PyVal
  deriving DecidableEq

instance {ε α : Type} [DecidableEq ε] [DecidableEq α] : DecidableEq (Except ε α)
  | .error e, .error e' =>
    if h : e = e' then isTrue (by rw [h]) else isFalse (by simp [h])
  | .error _, .ok _ => isFalse (by simp)
  | .ok _, .error _ => isFalse (by simp)
  | .ok a, .ok a' =>
    if h : a = a' then isTrue (by rw [h]) else isFalse (by simp [h])

/-- Python list indexing `l[i]` with negative-index wrap-around; raises
`IndexError` when out of range (mirrors CPython semantics used at
`core.py:45`, `self.value[frame - 1]`). -/
def pyListIndex (l : List PyVal) (i : Int) : Except PyError PyVal :=
  let j : Int := if i < 0 then i + l.length else i
  if 0 ≤ j then
    match l.get? j.toNat with
    | some v => .ok v
    | none => .error .indexError
  else .error .indexError

/-- Python `resp[::-1]`: reverses strings and tuples, raises `TypeError`
on non-subscriptable values. -/
def pyReverse : PyVal → Except PyError PyVal
  | .vstr s => .ok (.vstr s.reverse)
  | .vtuple a b c => .ok (.vtuple c b a)
  | _ => .error (.typeError "object is not subscriptable")

/-- Tail of `PossiblyDynamic.__getitem__` (core.py:51-55): the color
broadcast (`isinstance(resp, int)` check) followed by the optional
reversal. -/
def pdTransform (color_type reverse : Bool) (resp : PyVal) : Except PyError PyVal :=
  if color_type then
    match resp with
    | .vint n => .ok (.vtuple n n n)
    | _ => if reverse then pyReverse resp else .ok resp
  else if reverse then pyReverse resp else .ok resp

/-- Storage of a `PossiblyDynamic`: either the eagerly materialized
per-frame list (dynamic case) or the raw static value. -/
inductive PDStore where
  | dyn : List PyVal → PDStore
  | stat : PyVal → PDStore
  deriving DecidableEq

/-- Raw constructor argument of `PossiblyDynamic`: a Python callable
(`callable(func_or_value)` true) or a plain value. -/
inductive FuncOrValue where
  | func : (Int → PyVal) → FuncOrValue
  | value : PyVal → FuncOrValue

/-- Embedding of the `PossiblyDynamic` wrapper (core.py:21-55).  The
`is_dynamic` flag of the source is carried by the shape of `value`. -/
structure PossiblyDynamic where
  value : PDStore
  color_type : Bool
  reverse : Bool
  deriving DecidableEq

/-- The `is_dynamic` attribute (`callable(func_or_value)` at core.py:29). -/
def PossiblyDynamic.is_dynamic (p : PossiblyDynamic) : Bool :=
  match p.value with
  | .dyn _ => true
  | .stat _ => false

/-- `PossiblyDynamic.__init__` (core.py:25-40): a callable is evaluated
eagerly for every frame `1..frame_count` (raising if the frame count is
missing), a plain value is stored as-is. -/
def PossiblyDynamic.init (fv : FuncOrValue) (frame_count : Option Nat)
    (color_type : Bool) (reverse : Bool) : Except PyError PossiblyDynamic :=
  match fv with
  | .func g =>
    match frame_count with
    | none => .error (.asciifier
        "No frame count was given in order to pre-calculate dynamic parameters.")
    | some n => .ok ⟨.dyn ((List.range n).map (fun i => g (Int.ofNat (i + 1)))),
        color_type, reverse⟩
  | .value v => .ok ⟨.stat v, color_type, reverse⟩

/-- `PossiblyDynamic.__getitem__` (core.py:42-55).  In the dynamic case a
missing frame makes `frame - 1` raise `TypeError`, which the source
catches and converts to the no-frame `AsciifierException`; an integer
frame indexes the stored list Python-style.  The static case ignores the
frame.  Both then pass through `pdTransform`. -/
def PossiblyDynamic.getitem (p : PossiblyDynamic) (frame : Option Int) :
    Except PyError PyVal :=
  match p.value with
  | .dyn l =>
    match frame with
    | none => .error (.asciifier "Frame was not specified for dynamic parameter.")
    | some f =>
      match pyListIndex l (f - 1) with
      | .error e => .error e
      | .ok resp => pdTransform p.color_type p.reverse resp
  | .stat v => pdTransform p.color_type p.reverse v

/-- Python `int()` applied to a float, i.e. truncation towards zero,
carried out on the exact rational model. -/
def pyIntQ (q : ℚ) : Int :=
  if q < 0 then ⌈q⌉ else ⌊q⌋

/-- Coercion of a resolved parameter into a number for arithmetic.
Non-numeric operands raise `TypeError` as in Python. -/
def pyNum : PyVal → Except PyError ℚ
  | .vint n => .ok (n : ℚ)
  | .vrat q => .ok q
  | _ => .error (.typeError "unsupported operand type")

/-- Mutable state of a `CoreAsciifier` instance, restricted to the fields
the core engine reads and writes (core.py:105-143).  The external probe
results (`dimensions`, hence `ratio`) are part of the state; resolvers
hold materialized data only, so the state is closed under equality
checks. -/
structure CoreState where
  ratio : ℚ
  out_dimensions : Int × Int
  strict_out_dimensions : Bool
  is_video : Bool
  bg : PossiblyDynamic
  txt : PossiblyDynamic
  definition : PossiblyDynamic
  correction : PossiblyDynamic
  chars : PossiblyDynamic
  text_size : Option Int
  definition_height : Option Int
  deriving DecidableEq

/-- Type of the `Magick.text_dimensions` external collaborator: given
(cols, lines, point size, box width, box height) it returns the measured
pixel (width, height) of the rendered test block.  It is an external
process, modelled as an explicit deterministic oracle. -/
abbrev MeasureOracle := Int → Int → Int → Int → Int → Int × Int

/-- Embedding of `CoreAsciifier.figure_out_sizes` (core.py:152-192).
Python float arithmetic is modelled exactly over `ℚ` (1.7 as 17/10, 1.5 as
3/2, 0.5 as 1/2).  The `definition` parameter is typed `int` in the
source, so a non-integer resolved definition is modelled as a
`TypeError`. -/
def figure_out_sizes (measure : MeasureOracle) (s : CoreState)
    (frame : Option Int) (fine_tune : Bool) (even_sizes : Bool) :
    Except PyError CoreState :=
  match s.definition.getitem frame with
  | .error e => .error e
  | .ok defv =>
    match s.correction.getitem frame with
    | .error e => .error e
    | .ok corrv =>
      match defv with
      | .vint d =>
        if d = 0 then .error .zeroDivision
        else
          let ts : Int := ⌈((s.out_dimensions.1 : ℚ) * (17/10)) / (d : ℚ)⌉
          let corrRes : Except PyError ℚ :=
            match corrv with
            | .vnone =>
              let p := measure d d ts (pyIntQ ((s.out_dimensions.1 : ℚ) * (3/2)))
                (s.out_dimensions.1 * 2)
              if p.2 = 0 then .error .zeroDivision
              else .ok ((p.1 : ℚ) / (p.2 : ℚ))
            | v => pyNum v
          match corrRes with
          | .error e => .error e
          | .ok c =>
            let dh : Int := pyIntQ ((d : ℚ) * s.ratio * c)
            let s' : CoreState :=
              { s with text_size := some ts, definition_height := some dh }
            if s.strict_out_dimensions || !fine_tune then .ok s'
            else
              let p := measure d dh ts (pyIntQ ((s.out_dimensions.1 : ℚ) * (3/2)))
                (s.out_dimensions.2 * 2)
              if even_sizes then
                .ok { s' with out_dimensions :=
                  (pyIntQ ((p.1 : ℚ) * (1/2)) * 2, pyIntQ ((p.2 : ℚ) * (1/2)) * 2) }
              else
                .ok { s' with out_dimensions := (p.1, p.2) }
      | _ => .error (.typeError "unsupported operand type for division")

/-- Embedding of the state-building part of `CoreAsciifier.__init__`
(core.py:105-143) for a non-video source: the probed `dimensions` are an
argument, the aspect `ratio` and output dimensions are derived as in the
source (`out_width or self.dimensions[0]` treats 0 as falsy), and the five
parameter resolvers are constructed.  Filesystem work is modelled
separately. -/
def coreInit (dims : Int × Int) (bg txt definition correction chars : FuncOrValue)
    (out_width : Option (Sum Int (Int × Int))) (strict_out_dimensions : Bool)
    (reverse_chars : Bool) (frame_count : Option Nat) (is_video : Bool) :
    Except PyError CoreState :=
  if dims.1 = 0 then .error .zeroDivision
  else
    let ratio : ℚ := (dims.2 : ℚ) / (dims.1 : ℚ)
    let out_dims : Int × Int :=
      match out_width with
      | some (.inr wh) => wh
      | some (.inl w) =>
        let w' := if w = 0 then dims.1 else w
        (w', pyIntQ ((w' : ℚ) * ratio))
      | none => (dims.1, pyIntQ ((dims.1 : ℚ) * ratio))
    match PossiblyDynamic.init bg frame_count true false with
    | .error e => .error e
    | .ok bgR =>
      match PossiblyDynamic.init txt frame_count true false with
      | .error e => .error e
      | .ok txtR =>
        match PossiblyDynamic.init definition frame_count false false with
        | .error e => .error e
        | .ok defR =>
          match PossiblyDynamic.init correction frame_count false false with
          | .error e => .error e
          | .ok corrR =>
            match PossiblyDynamic.init chars frame_count false reverse_chars with
            | .error e => .error e
            | .ok charsR =>
              .ok { ratio := ratio, out_dimensions := out_dims,
                    strict_out_dimensions := strict_out_dimensions,
                    is_video := is_video, bg := bgR, txt := txtR,
                    definition := defR, correction := corrR, chars := charsR,
                    text_size := none, definition_height := none }

/-- Python `max()` over a list of ints (first maximum wins on ties);
raises `ValueError` on an empty sequence and `TypeError` on non-int
elements (the `definition` parameter is typed `int`). -/
def pyMaxIntList (l : List PyVal) : Except PyError Int :=
  match l with
  | [] => .error (.valueError "max() arg is an empty sequence")
  | v :: rest =>
    match v with
    | .vint n =>
      rest.foldlM (fun acc w =>
        match w with
        | .vint m => .ok (if acc < m then m else acc)
        | _ => .error (.typeError "int comparison with non-int")) n
    | _ => .error (.typeError "int comparison with non-int")

/-- Embedding of `core.definition.value.index(max(core.definition.value))`
(image.py:130).  On a dynamic definition this is the 0-BASED index of the
first largest precomputed value; on a static value Python's `max` raises
`TypeError` for an `int`, while strings and tuples are iterable and give
the index of their largest element. -/
def maxDefFrame (p : PossiblyDynamic) : Except PyError Nat :=
  match p.value with
  | .dyn l =>
    match pyMaxIntList l with
    | .error e => .error e
    | .ok m =>
      match l.findIdx? (fun v => decide (v = .vint m)) with
      | some i => .ok i
      | none => .error (.valueError "value not in list")
  | .stat (.vstr s) =>
    match s with
    | [] => .error (.valueError "max() arg is an empty sequence")
    | c :: rest =>
      let m := rest.foldl (fun acc ch => if acc < ch then ch else acc) c
      match s.findIdx? (fun ch => decide (ch = m)) with
      | some i => .ok i
      | none => .error (.valueError "value not in list")
  | .stat (.vtuple a b c) =>
    let m := max a (max b c)
    .ok (if a = m then 0 else if b = m then 1 else 2)
  | .stat _ => .error (.typeError "argument of type int is not iterable")

/-- Shared-geometry step of `image.dynamic_asciify` (image.py:130-131):
select `max_def_frame` and run `figure_out_sizes(max_def_frame,
even_sizes=True)` (with its default `fine_tune=True`). -/
def image_dynamic_geom (measure : MeasureOracle) (core : CoreState) :
    Except PyError CoreState :=
  match maxDefFrame core.definition with
  | .error e => .error e
  | .ok mdf => figure_out_sizes measure core (some (mdf : Int)) true true

/-- Geometry step of the per-frame worker `dynamic_single_frame`
(image.py:12-16 and video.py:37-41): `figure_out_sizes(frame,
fine_tune=False, even_sizes=True)`. -/
def dynamic_single_frame_sizes (measure : MeasureOracle) (core : CoreState)
    (frame : Int) : Except PyError CoreState :=
  figure_out_sizes measure core (some frame) false true

/-- Python string indexing `chars[i]` for the non-negative indices
produced by the ramp formula; raises `IndexError` out of range. -/
def pyCharAt (cs : List Char) (i : Nat) : Except PyError Char :=
  match cs.get? i with
  | some c => .ok c
  | none => .error .indexError

/-- The ramp-index mapping of `generate_ascii_art` (core.py:220):
`chars[(pixel * (len(chars) - 1)) // 255]`, total form used in
specifications (it agrees with the code whenever the index is in range,
which holds for luminance values in [0, 255]). -/
def rampChar (cs : List Char) (pixel : Nat) : Char :=
  cs.getD ((pixel * (cs.length - 1)) / 255) ' '

/-- The character-emitting loop of `generate_ascii_art` (core.py:219-223):
`k` counts pixels from 1 and a newline is appended after every
`definition` characters (`if not k % definition`); `k % 0` would raise
`ZeroDivisionError` exactly as in Python. -/
def asciiLoop (cs : List Char) (d : Nat) (pixels : List Nat) (k : Nat) :
    Except PyError (List Char) :=
  match pixels with
  | [] => .ok []
  | p :: rest =>
    match pyCharAt cs ((p * (cs.length - 1)) / 255) with
    | .error e => .error e
    | .ok ch =>
      if d = 0 then .error .zeroDivision
      else
        match asciiLoop cs d rest (k + 1) with
        | .error e => .error e
        | .ok tail => .ok (ch :: (if k % d = 0 then '\n' :: tail else tail))

/-- Embedding of `CoreAsciifier.generate_ascii_art` (core.py:204-225).
The PIL resample is an external collaborator: `pixels` is the row-major
luminance grid returned by `img.getdata()` after the
`definition × definition_height` resize.  A negative resolved definition
would already fail inside PIL, so the loop receives `d.toNat`. -/
def generate_ascii_art (s : CoreState) (pixels : List Nat)
    (frame : Option Int) : Except PyError (List Char) :=
  if s.is_video ∧ frame = none then
    .error (.asciifier "Frame was not specified for ascii art generation.")
  else
    match s.definition.getitem frame with
    | .error e => .error e
    | .ok defv =>
      match s.chars.getitem frame with
      | .error e => .error e
      | .ok charsv =>
        match defv, charsv with
        | .vint d, .vstr cs => asciiLoop cs d.toNat pixels 1
        | _, _ => .error (.typeError "bad definition or chars type")

/-- Splitting a list into chunks of `d` elements, via structural fuel so
that it computes by kernel reduction.  With `d > 0` and enough fuel this
partitions the list into the consecutive rows of the ASCII art. -/
def chunksOfAux (fuel : Nat) (d : Nat) (l : List α) : List (List α) :=
  match fuel, l with
  | 0, _ => []
  | _, [] => []
  | fuel + 1, x :: xs => (x :: xs.take (d - 1)) :: chunksOfAux fuel d (xs.drop (d - 1))

/-- Chunks of `d` consecutive elements of `l` (the rows of the art). -/
def chunksOf (d : Nat) (l : List α) : List (List α) :=
  chunksOfAux l.length d l

/-- A filesystem path, as the list of its components. -/
abbrev FSPath := List String

/-- A filesystem: the collection of currently existing paths. -/
abbrev FS := List FSPath

/-- Existence of a path in the modelled filesystem. -/
def FS.exists_path (fs : FS) (p : FSPath) : Prop := p ∈ fs

/-- Embedding of `shutil.rmtree` (core.py:257): removes the directory and
everything below it. -/
def rmtree (fs : FS) (dir : FSPath) : FS :=
  fs.filter (fun p => !(dir.isPrefixOf p))

/-- The `asciipixels` process directory created next to the source file
(core.py:140). -/
def processDir (parent : FSPath) : FSPath := parent ++ ["asciipixels"]

/-- Directory creation of `CoreAsciifier.__init__` (core.py:140-143): the
process dir and its `Frames` and `NewFrames` subdirectories. -/
def coreInitFS (parent : FSPath) (fs : FS) : FS :=
  (processDir parent ++ ["NewFrames"]) :: (processDir parent ++ ["Frames"]) ::
    processDir parent :: fs

/-- `CoreAsciifier.__exit__` (core.py:148-150): unconditionally removes
the process directory. -/
def coreExitFS (parent : FSPath) (fs : FS) : FS := rmtree fs (processDir parent)

/-- A generation run under the `with` statement: the body is an arbitrary
filesystem transformer that ends either normally or with an exception,
returning in both cases the filesystem state at that moment; CPython's
`with` protocol runs `__exit__` in both cases. -/
def runWithCore (parent : FSPath) (body : FS → FS × Option PyError)
    (fs : FS) : FS × Option PyError :=
  let fs1 := coreInitFS parent fs
  let r := body fs1
  (coreExitFS parent r.1, r.2)

/-- Concrete test state used by closed theorems: a 100×100 source image
with the documented defaults, parametrized by the definition and
correction stores, the output dimensions and the strictness flag. -/
def mkTestState (defn corr : PDStore) (dims : Int × Int) (strict : Bool) :
    CoreState :=
  { ratio := 1, out_dimensions := dims, strict_out_dimensions := strict,
    is_video := false,
    bg := ⟨.stat (.vint 30), true, false⟩,
    txt := ⟨.stat (.vint 255), true, false⟩,
    definition := ⟨defn, false, false⟩,
    correction := ⟨corr, false, false⟩,
    chars := ⟨.stat (.vstr [' ', '.', ':', '-', '=', '+', '*', '$', '@', '#']),
      false, false⟩,
    text_size := none, definition_height := none }

/-- Trivial measuring oracle for paths that never consult it. -/
def measure0 : MeasureOracle := fun _ _ _ _ _ => (0, 0)

/-- Concrete state for the geometry-freeze witness: static definition 10,
static correction 1. -/
def sC3 : CoreState := mkTestState (.stat (.vint 10)) (.stat (.vrat 1)) (100, 100) false

/-- Concrete state with a non-positive user-supplied correction factor. -/
def sC7w : CoreState := mkTestState (.stat (.vint 100)) (.stat (.vrat (-1))) (100, 100) false

/-- Concrete state for the geometry-formula witness: static definition 10,
static correction 1, 100×80 requested output. -/
def sC5w : CoreState := mkTestState (.stat (.vint 10)) (.stat (.vrat 1)) (100, 80) false

/-- Scenario-B state: the materialized dynamic definition sequence
[51, 52, 53] (from `f(frame) = 50 + frame`, `frame_count = 3`), aspect
ratio 1, explicit correction 1, strict output dimensions. -/
def sC1 : CoreState :=
  mkTestState (.dyn [.vint 51, .vint 52, .vint 53]) (.stat (.vrat 1)) (100, 100) true

/-- Measuring oracle returning a fixed 95×77 text bounding box. -/
def measure9577 : MeasureOracle := fun _ _ _ _ _ => (95, 77)

/-- The documented default character ramp ' .:-=+*$@#'. -/
def rampDefault : List Char := [' ', '.', ':', '-', '=', '+', '*', '$', '@', '#']

/-- Scenario-A state: single image, static definition 4, explicit
correction 1, default ramp. -/
def sC4w : CoreState := mkTestState (.stat (.vint 4)) (.stat (.vrat 1)) (100, 100) false

/-- A 4×4 row-major luminance grid covering the full [0, 255] range. -/
def pixelsA : List Nat :=
  [0, 17, 34, 51, 68, 85, 102, 119, 136, 153, 170, 187, 204, 221, 238, 255]

theorem pyListIndex_map_range (g : Int → PyVal) (n : Nat) (f : Int)
    (h1 : 1 ≤ f) (h2 : f ≤ (n : Int)) :
    pyListIndex ((List.range n).map (fun i => g (Int.ofNat (i + 1)))) (f - 1)
      = .ok (g f) := by
  have hneg : ¬ (f - 1 < 0) := by omega
  have h0 : (0 : Int) ≤ f - 1 := by omega
  have hlt : (f - 1).toNat < n := by omega
  have hg : ((List.range n).map (fun i => g (Int.ofNat (i + 1)))).get? (f - 1).toNat
      = some (g f) := by
    rw [List.get?_map, List.get?_range hlt]
    have hc : Int.ofNat ((f - 1).toNat + 1) = f := by
      rw [Int.ofNat_eq_coe]; omega
    rw [Option.map_some', hc]
  simp only [pyListIndex, hneg, if_false, h0, if_pos, if_true]
  rw [hg]

theorem pyListIndex_map_range_last (g : Int → PyVal) (n : Nat) (hn : 1 ≤ n) :
    pyListIndex ((List.range n).map (fun i => g (Int.ofNat (i + 1)))) (-1)
      = .ok (g (n : Int)) := by
  have hlen : ((List.range n).map (fun i => g (Int.ofNat (i + 1)))).length = n := by
    rw [List.length_map, List.length_range]
  have hneg : (-1 : Int) < 0 := by omega
  have hlt : ((-1 : Int) + (n : Int)).toNat < n := by omega
  have h0 : (0 : Int) ≤ -1 + (n : Int) := by omega
  have hg : ((List.range n).map (fun i => g (Int.ofNat (i + 1)))).get?
      ((-1 : Int) + (n : Int)).toNat = some (g (n : Int)) := by
    rw [List.get?_map, List.get?_range hlt]
    have hc : Int.ofNat (((-1 : Int) + (n : Int)).toNat + 1) = (n : Int) := by
      rw [Int.ofNat_eq_coe]; omega
    rw [Option.map_some', hc]
  simp only [pyListIndex, hlen, hneg, if_true, h0, if_pos]
  rw [hg]

theorem pyListIndex_shape (l : List PyVal) (i : Int) :
    (∃ v, pyListIndex l i = .ok v) ∨ pyListIndex l i = .error .indexError := by
  simp only [pyListIndex]
  by_cases h0 : (0 : Int) ≤ (if i < 0 then i + l.length else i)
  · rw [if_pos h0]
    cases hg : l.get? (if i < 0 then i + l.length else i).toNat with
    | some v => exact Or.inl ⟨v, rfl⟩
    | none => exact Or.inr rfl
  · rw [if_neg h0]
    exact Or.inr rfl

theorem pdTransform_ne_asciifier (ct rv : Bool) (v : PyVal) (msg : String) :
    pdTransform ct rv v ≠ .error (.asciifier msg) := by
  cases v <;> cases ct <;> cases rv <;> simp [pdTransform, pyReverse]

/-- C2: a dynamic parameter given as a function `g` with frame count `n`
is materialized eagerly into the stored sequence `[g 1, …, g n]`; looking
it up at any frame `f ∈ [1, n]` returns `g f` (after the configured
transforms), and looking it up without a frame raises the
"frame not specified for dynamic parameter" error. -/
theorem C2_dynamic_resolution (g : Int → PyVal) (n : Nat) (ct rv : Bool)
    (p : PossiblyDynamic)
    (h : PossiblyDynamic.init (.func g) (some n) ct rv = .ok p) :
    p.value = .dyn ((List.range n).map (fun i => g (Int.ofNat (i + 1))))
    ∧ (∀ f : Int, 1 ≤ f → f ≤ (n : Int) →
        p.getitem (some f) = pdTransform ct rv (g f))
    ∧ p.getitem none
        = .error (.asciifier "Frame was not specified for dynamic parameter.") := by
  simp only [PossiblyDynamic.init, Except.ok.injEq] at h
  subst h
  refine ⟨rfl, ?_, rfl⟩
  intro f h1 h2
  simp only [PossiblyDynamic.getitem]
  rw [pyListIndex_map_range g n f h1 h2]

theorem C2_witness :
    (PossiblyDynamic.init (.func (fun f => .vint (50 + f))) (some 3) false false
      = .ok ⟨.dyn [.vint 51, .vint 52, .vint 53], false, false⟩)
    ∧ (1 : Int) ≤ 2 ∧ (2 : Int) ≤ 3
    ∧ PossiblyDynamic.getitem ⟨.dyn [.vint 51, .vint 52, .vint 53], false, false⟩
        (some 2) = pdTransform false false (.vint 52) := by
  refine ⟨by decide, by decide, by decide, ?_⟩
  have h := (C2_dynamic_resolution (fun f => .vint (50 + f)) 3 false false
      ⟨.dyn [.vint 51, .vint 52, .vint 53], false, false⟩ (by decide)).2.1
      2 (by decide) (by decide)
  simpa using h

/-- C6: a static (non-callable) parameter is returned unchanged by every
lookup, with any frame index (including `None`), apart from the configured
output transforms: a color-typed resolver broadcasts an integer to a
3-tuple of equal components, and a reversal-enabled resolver returns the
value reversed (e.g. ramp "AB" resolves to "BA" for every lookup). -/
theorem C6_static_resolution (v : PyVal) (fc : Option Nat) (ct rv : Bool)
    (p : PossiblyDynamic)
    (h : PossiblyDynamic.init (.value v) fc ct rv = .ok p) :
    (∀ frame : Option Int, p.getitem frame = pdTransform ct rv v)
    ∧ (∀ n : Int, ct = true → v = .vint n →
        ∀ frame : Option Int, p.getitem frame = .ok (.vtuple n n n))
    ∧ (∀ s : List Char, rv = true → v = .vstr s →
        ∀ frame : Option Int, p.getitem frame = .ok (.vstr s.reverse)) := by
  simp only [PossiblyDynamic.init, Except.ok.injEq] at h
  subst h
  refine ⟨fun frame => rfl, ?_, ?_⟩
  · intro n hct hv frame
    subst hct; subst hv
    simp [PossiblyDynamic.getitem, pdTransform]
  · intro s hrv hv frame
    subst hrv; subst hv
    cases ct <;> simp [PossiblyDynamic.getitem, pdTransform, pyReverse]

theorem C6_witness :
    (PossiblyDynamic.init (.value (.vstr ['A', 'B'])) none false true
      = .ok ⟨.stat (.vstr ['A', 'B']), false, true⟩)
    ∧ PossiblyDynamic.getitem ⟨.stat (.vstr ['A', 'B']), false, true⟩ (some 7)
      = .ok (.vstr ['B', 'A']) := by
  refine ⟨by decide, ?_⟩
  have h := (C6_static_resolution (.vstr ['A', 'B']) none false true
      ⟨.stat (.vstr ['A', 'B']), false, true⟩ (by decide)).2.2
      ['A', 'B'] rfl rfl (some 7)
  simpa using h

/-- C10: on a dynamic-backed resolver with `n ≥ 1` frames, a lookup with
frame index 0 raises no error: Python's negative indexing of the stored
list silently returns the value precomputed for frame `n` (the lookup is
indistinguishable from a frame-`n` lookup).  Only a missing (`None`)
frame index produces the no-frame `AsciifierException`; no integer frame
index can ever produce one. -/
theorem C10_frame_zero (g : Int → PyVal) (n : Nat) (ct rv : Bool)
    (p : PossiblyDynamic)
    (h : PossiblyDynamic.init (.func g) (some n) ct rv = .ok p)
    (hn : 1 ≤ n) :
    p.getitem (some 0) = pdTransform ct rv (g (n : Int))
    ∧ p.getitem (some 0) = p.getitem (some (n : Int))
    ∧ (∀ f : Int, ∀ msg : String, p.getitem (some f) ≠ .error (.asciifier msg))
    ∧ p.getitem none
      = .error (.asciifier "Frame was not specified for dynamic parameter.") := by
  simp only [PossiblyDynamic.init, Except.ok.injEq] at h
  subst h
  have hzero : PossiblyDynamic.getitem
      ⟨.dyn ((List.range n).map (fun i => g (Int.ofNat (i + 1)))), ct, rv⟩ (some 0)
      = pdTransform ct rv (g (n : Int)) := by
    simp only [PossiblyDynamic.getitem]
    rw [show (0 : Int) - 1 = -1 by omega, pyListIndex_map_range_last g n hn]
  have hlast : PossiblyDynamic.getitem
      ⟨.dyn ((List.range n).map (fun i => g (Int.ofNat (i + 1)))), ct, rv⟩
      (some (n : Int)) = pdTransform ct rv (g (n : Int)) := by
    simp only [PossiblyDynamic.getitem]
    rw [pyListIndex_map_range g n (n : Int) (by omega) (by omega)]
  refine ⟨hzero, by rw [hzero, hlast], ?_, rfl⟩
  intro f msg
  simp only [PossiblyDynamic.getitem]
  rcases pyListIndex_shape ((List.range n).map (fun i => g (Int.ofNat (i + 1))))
      (f - 1) with ⟨v, hv⟩ | hv
  · rw [hv]
    exact pdTransform_ne_asciifier ct rv v msg
  · rw [hv]
    intro hcontra
    exact PyError.noConfusion (Except.error.inj hcontra)

theorem C10_witness :
    (PossiblyDynamic.init (.func (fun f => .vint (50 + f))) (some 3) false false
      = .ok ⟨.dyn [.vint 51, .vint 52, .vint 53], false, false⟩)
    ∧ (1 : Nat) ≤ 3
    ∧ PossiblyDynamic.getitem ⟨.dyn [.vint 51, .vint 52, .vint 53], false, false⟩
        (some 0) = pdTransform false false (.vint 53) := by
  refine ⟨by decide, by decide, ?_⟩
  have h := (C10_frame_zero (fun f => .vint (50 + f)) 3 false false
      ⟨.dyn [.vint 51, .vint 52, .vint 53], false, false⟩ (by decide) (by decide)).1
  simpa using h

/-- C9 (implicit): calling `image.dynamic_asciify` with a static
(non-callable) integer definition — including the default `definition=100`
— reaches `max()` applied to a plain int at the largest-definition
selection step (image.py:130) and raises an uncaught `TypeError`, before
any frame worker is dispatched. -/
theorem C9_static_definition_type_error (measure : MeasureOracle)
    (core : CoreState) (d : Int)
    (h : core.definition.value = .stat (.vint d)) :
    image_dynamic_geom measure core
      = .error (.typeError "argument of type int is not iterable") := by
  simp [image_dynamic_geom, maxDefFrame, h]

theorem C9_witness :
    ((mkTestState (.stat (.vint 100)) (.stat .vnone) (100, 100) false).definition.value
      = .stat (.vint 100))
    ∧ image_dynamic_geom measure0
        (mkTestState (.stat (.vint 100)) (.stat .vnone) (100, 100) false)
      = .error (.typeError "argument of type int is not iterable") :=
  ⟨by decide,
    C9_static_definition_type_error measure0
      (mkTestState (.stat (.vint 100)) (.stat .vnone) (100, 100) false) 100 (by decide)⟩

theorem fos_no_finetune_freeze (measure : MeasureOracle) (s : CoreState)
    (frame : Option Int) (even : Bool) (s' : CoreState)
    (h : figure_out_sizes measure s frame false even = .ok s') :
    s'.out_dimensions = s.out_dimensions := by
  simp only [figure_out_sizes, Bool.not_false, Bool.or_true, if_true] at h
  split at h
  · exact absurd h (by simp)
  · split at h
    · exact absurd h (by simp)
    · split at h
      · split at h
        · exact absurd h (by simp)
        · split at h
          · exact absurd h (by simp)
          · rw [Except.ok.injEq] at h
            subst h
            rfl
      · exact absurd h (by simp)

/-- C3: across a sequence run every rendered frame keeps the frozen output
canvas dimensions: a per-frame pass with `fine_tune=False` never changes
`out_dimensions`, any two successful per-frame passes agree on it, and the
worker geometry step `dynamic_single_frame` in particular leaves it
untouched, so all frames share the once-computed canvas size. -/
theorem C3_geometry_freeze (measure : MeasureOracle) (s : CoreState)
    (frame1 frame2 : Option Int) (even1 even2 : Bool) (s1 s2 : CoreState)
    (h1 : figure_out_sizes measure s frame1 false even1 = .ok s1)
    (h2 : figure_out_sizes measure s frame2 false even2 = .ok s2) :
    s1.out_dimensions = s.out_dimensions
    ∧ s2.out_dimensions = s.out_dimensions
    ∧ s1.out_dimensions = s2.out_dimensions
    ∧ (∀ frame : Int, ∀ s' : CoreState,
        dynamic_single_frame_sizes measure s frame = .ok s' →
        s'.out_dimensions = s.out_dimensions) := by
  have e1 := fos_no_finetune_freeze measure s frame1 even1 s1 h1
  have e2 := fos_no_finetune_freeze measure s frame2 even2 s2 h2
  exact ⟨e1, e2, by rw [e1, e2], fun frame s' h' =>
    fos_no_finetune_freeze measure s (some frame) true s' h'⟩

theorem C3_witness :
    (figure_out_sizes measure0 sC3 (some 1) false true
      = .ok { sC3 with
          text_size := some ⌈((sC3.out_dimensions.1 : ℚ) * (17/10)) / ((10 : Int) : ℚ)⌉,
          definition_height := some (pyIntQ (((10 : Int) : ℚ) * sC3.ratio * 1)) })
    ∧ (figure_out_sizes measure0 sC3 none false false
      = .ok { sC3 with
          text_size := some ⌈((sC3.out_dimensions.1 : ℚ) * (17/10)) / ((10 : Int) : ℚ)⌉,
          definition_height := some (pyIntQ (((10 : Int) : ℚ) * sC3.ratio * 1)) })
    ∧ ({ sC3 with
          text_size := some ⌈((sC3.out_dimensions.1 : ℚ) * (17/10)) / ((10 : Int) : ℚ)⌉,
          definition_height := some (pyIntQ (((10 : Int) : ℚ) * sC3.ratio * 1))
        : CoreState }.out_dimensions = sC3.out_dimensions) := by
  refine ⟨rfl, rfl, ?_⟩
  exact (C3_geometry_freeze measure0 sC3 (some 1) none true false _ _ rfl rfl).1

theorem pyIntQ_nonpos (q : ℚ) (h : q ≤ 0) : pyIntQ q ≤ 0 := by
  unfold pyIntQ
  by_cases hlt : q < 0
  · rw [if_pos hlt]
    have : (⌈q⌉ : ℚ) ≤ ((0 : Int) : ℚ) → ⌈q⌉ ≤ 0 := by exact_mod_cast fun t => t
    exact Int.ceil_le.mpr (by exact_mod_cast h)
  · rw [if_neg hlt]
    calc ⌊q⌋ ≤ ⌊(0 : ℚ)⌋ := Int.floor_le_floor h
    _ = 0 := Int.floor_zero

/-- C7 (amended): the code performs no validation of a non-positive
correction factor; with `correction ≤ 0` both construction and
`figure_out_sizes` complete without error, and the resulting
`definition_height` is non-positive (degenerate geometry). -/
theorem C7_no_correction_validation (measure : MeasureOracle) (s : CoreState)
    (frame : Option Int) (d : Int) (c : ℚ)
    (hdef : s.definition.getitem frame = .ok (.vint d)) (hd : 0 < d)
    (hcorr : s.correction.getitem frame = .ok (.vrat c)) (hc : c ≤ 0)
    (hr : 0 ≤ s.ratio) :
    ∃ s', figure_out_sizes measure s frame false false = .ok s'
      ∧ ∃ k : Int, s'.definition_height = some k ∧ k ≤ 0 := by
  have hd0 : ¬ (d = 0) := by omega
  refine ⟨{ s with
      text_size := some ⌈((s.out_dimensions.1 : ℚ) * (17/10)) / (d : ℚ)⌉,
      definition_height := some (pyIntQ ((d : ℚ) * s.ratio * c)) }, ?_, ?_⟩
  · simp only [figure_out_sizes, hdef, hcorr, pyNum, if_neg hd0, Bool.not_false,
      Bool.or_true, if_true]
  · refine ⟨pyIntQ ((d : ℚ) * s.ratio * c), rfl, ?_⟩
    have h1 : (0 : ℚ) ≤ (d : ℚ) * s.ratio :=
      mul_nonneg (by exact_mod_cast hd.le) hr
    exact pyIntQ_nonpos _ (mul_nonpos_of_nonneg_of_nonpos h1 hc)

theorem C7_counterexample :
    (coreInit (100, 100) (.value (.vint 30)) (.value (.vint 255))
        (.value (.vint 100)) (.value (.vrat (-1)))
        (.value (.vstr [' ', '.'])) none false false none false).isOk = true
    ∧ (∃ s', figure_out_sizes measure0
        (mkTestState (.stat (.vint 100)) (.stat (.vrat (-1))) (100, 100) false)
        none false false = .ok s'
      ∧ s'.definition_height = some (-100)) := by
  constructor
  · rfl
  · refine ⟨{ mkTestState (.stat (.vint 100)) (.stat (.vrat (-1))) (100, 100) false with
        text_size := some ⌈(((mkTestState (.stat (.vint 100)) (.stat (.vrat (-1)))
            (100, 100) false).out_dimensions.1 : ℚ) * (17/10)) / ((100 : Int) : ℚ)⌉,
        definition_height := some (pyIntQ (((100 : Int) : ℚ)
          * (mkTestState (.stat (.vint 100)) (.stat (.vrat (-1)))
              (100, 100) false).ratio * (-1))) }, rfl, ?_⟩
    have hq : ((100 : Int) : ℚ) * (mkTestState (.stat (.vint 100)) (.stat (.vrat (-1)))
        (100, 100) false).ratio * (-1) = -100 := by
      show ((100 : Int) : ℚ) * 1 * (-1) = -100
      norm_num
    simp only [hq]
    have : pyIntQ (-100) = -100 := by
      unfold pyIntQ
      rw [if_pos (by norm_num), show (-100 : ℚ) = ((-100 : Int) : ℚ) by norm_num,
        Int.ceil_intCast]
    rw [this]

theorem C7_witness :
    ((sC7w.definition.getitem none = .ok (.vint 100)) ∧ (0 : Int) < 100
      ∧ (sC7w.correction.getitem none = .ok (.vrat (-1))) ∧ (-1 : ℚ) ≤ 0
      ∧ (0 : ℚ) ≤ sC7w.ratio)
    ∧ (∃ s', figure_out_sizes measure0 sC7w none false false = .ok s'
        ∧ ∃ k : Int, s'.definition_height = some k ∧ k ≤ 0) :=
  ⟨⟨by decide, by decide, by decide, by decide, by decide⟩,
    C7_no_correction_validation measure0 sC7w none 100 (-1)
      (by decide) (by decide) (by decide) (by decide) (by decide)⟩

theorem pyIntQ_nonneg_eq_floor (q : ℚ) (h : 0 ≤ q) : pyIntQ q = ⌊q⌋ := by
  unfold pyIntQ
  rw [if_neg (not_lt.mpr h)]

theorem pyIntQ_half_even_round (t : Int) (h : 0 ≤ t) :
    Even (pyIntQ ((t : ℚ) * (1/2)) * 2)
    ∧ pyIntQ ((t : ℚ) * (1/2)) * 2 ≤ t
    ∧ t < pyIntQ ((t : ℚ) * (1/2)) * 2 + 2 := by
  have hq : (0 : ℚ) ≤ (t : ℚ) * (1/2) := by
    have : (0 : ℚ) ≤ (t : ℚ) := by exact_mod_cast h
    nlinarith
  rw [pyIntQ_nonneg_eq_floor _ hq]
  refine ⟨⟨⌊(t : ℚ) * (1/2)⌋, by ring⟩, ?_, ?_⟩
  · have h1 : ((⌊(t : ℚ) * (1/2)⌋ : ℚ)) ≤ (t : ℚ) * (1/2) := Int.floor_le _
    have h2 : ((⌊(t : ℚ) * (1/2)⌋ * 2 : Int) : ℚ) ≤ ((t : Int) : ℚ) := by
      push_cast
      linarith
    exact_mod_cast h2
  · have h1 : (t : ℚ) * (1/2) < ⌊(t : ℚ) * (1/2)⌋ + 1 := Int.lt_floor_add_one _
    have h2 : ((t : Int) : ℚ) < ((⌊(t : ℚ) * (1/2)⌋ * 2 + 2 : Int) : ℚ) := by
      push_cast
      linarith
    exact_mod_cast h2

/-- C5: `figure_out_sizes` computes the text point size as
`ceil(output_width * 1.7 / definition)`, the vertical sampling count as
`floor(definition * ratio * correction)` (the source truncates, which is
the floor for the non-negative operands), and, when even sizes are
requested and fine-tuning applies, each axis of the output canvas becomes
the measured text extent rounded down to the nearest even number. -/
theorem C5_geometry_numerics (measure : MeasureOracle) (s : CoreState)
    (frame : Option Int) (d tw th : Int) (c : ℚ)
    (hdef : s.definition.getitem frame = .ok (.vint d)) (hd : 0 < d)
    (hcorr : s.correction.getitem frame = .ok (.vrat c)) (hc : 0 ≤ c)
    (hr : 0 ≤ s.ratio)
    (hstrict : s.strict_out_dimensions = false)
    (hmeas : measure d (pyIntQ ((d : ℚ) * s.ratio * c))
        ⌈((s.out_dimensions.1 : ℚ) * (17/10)) / (d : ℚ)⌉
        (pyIntQ ((s.out_dimensions.1 : ℚ) * (3/2)))
        (s.out_dimensions.2 * 2) = (tw, th))
    (htw : 0 ≤ tw) (hth : 0 ≤ th) :
    ∃ s', figure_out_sizes measure s frame true true = .ok s'
      ∧ s'.text_size = some ⌈((s.out_dimensions.1 : ℚ) * (17/10)) / (d : ℚ)⌉
      ∧ s'.definition_height = some ⌊(d : ℚ) * s.ratio * c⌋
      ∧ (Even s'.out_dimensions.1 ∧ s'.out_dimensions.1 ≤ tw
          ∧ tw < s'.out_dimensions.1 + 2)
      ∧ (Even s'.out_dimensions.2 ∧ s'.out_dimensions.2 ≤ th
          ∧ th < s'.out_dimensions.2 + 2) := by
  have hd0 : ¬ (d = 0) := by omega
  refine ⟨{ s with
      out_dimensions := (pyIntQ ((tw : ℚ) * (1/2)) * 2, pyIntQ ((th : ℚ) * (1/2)) * 2),
      text_size := some ⌈((s.out_dimensions.1 : ℚ) * (17/10)) / (d : ℚ)⌉,
      definition_height := some (pyIntQ ((d : ℚ) * s.ratio * c)) },
    ?_, rfl, ?_, ?_, ?_⟩
  · simp only [figure_out_sizes, hdef, hcorr, pyNum, if_neg hd0, hstrict,
      Bool.not_true, Bool.or_false, Bool.false_or, Bool.false_eq_true, if_false,
      hmeas, if_true]
  · have hq : (0 : ℚ) ≤ (d : ℚ) * s.ratio * c :=
      mul_nonneg (mul_nonneg (by exact_mod_cast hd.le) hr) hc
    rw [pyIntQ_nonneg_eq_floor _ hq]
  · exact pyIntQ_half_even_round tw htw
  · exact pyIntQ_half_even_round th hth

theorem C5_witness :
    ((sC5w.definition.getitem none = .ok (.vint 10)) ∧ (0 : Int) < 10
      ∧ (sC5w.correction.getitem none = .ok (.vrat 1)) ∧ (0 : ℚ) ≤ 1
      ∧ (0 : ℚ) ≤ sC5w.ratio ∧ sC5w.strict_out_dimensions = false
      ∧ measure9577 10 (pyIntQ (((10 : Int) : ℚ) * sC5w.ratio * 1))
          ⌈((sC5w.out_dimensions.1 : ℚ) * (17/10)) / ((10 : Int) : ℚ)⌉
          (pyIntQ ((sC5w.out_dimensions.1 : ℚ) * (3/2)))
          (sC5w.out_dimensions.2 * 2) = (95, 77)
      ∧ (0 : Int) ≤ 95 ∧ (0 : Int) ≤ 77)
    ∧ (∃ s', figure_out_sizes measure9577 sC5w none true true = .ok s'
      ∧ s'.text_size = some ⌈((sC5w.out_dimensions.1 : ℚ) * (17/10)) / ((10 : Int) : ℚ)⌉
      ∧ s'.definition_height = some ⌊((10 : Int) : ℚ) * sC5w.ratio * 1⌋
      ∧ (Even s'.out_dimensions.1 ∧ s'.out_dimensions.1 ≤ 95
          ∧ 95 < s'.out_dimensions.1 + 2)
      ∧ (Even s'.out_dimensions.2 ∧ s'.out_dimensions.2 ≤ 77
          ∧ 77 < s'.out_dimensions.2 + 2)) :=
  ⟨⟨by decide, by decide, by decide, by decide, by decide, rfl, rfl, by decide, by decide⟩,
    C5_geometry_numerics measure9577 sC5w none 10 95 77 1
      (by decide) (by decide) (by decide) (by decide) (by decide) rfl rfl
      (by decide) (by decide)⟩

/-- C1 (code bug, scenario B): with the dynamic definition
`f(frame) = 50 + frame` and `frame_count = 3` the resolved sequence is
`[51, 52, 53]` and its largest value sits at frame 3; but
`image.dynamic_asciify` passes the 0-BASED index of the largest value
(here 2) as the 1-based frame number of `figure_out_sizes`, so the shared
geometry is computed from frame 2's definition 52 — not from frame 3's
largest definition 53 as the specification states (with ratio 1 and
correction 1 the resulting `definition_height` equals the definition the
geometry actually used). -/
theorem C1_largest_definition_off_by_one :
    (PossiblyDynamic.init (.func (fun f => .vint (50 + f))) (some 3) false false
      = .ok ⟨.dyn [.vint 51, .vint 52, .vint 53], false, false⟩)
    ∧ maxDefFrame sC1.definition = .ok 2
    ∧ sC1.definition.getitem (some 3) = .ok (.vint 53)
    ∧ sC1.definition.getitem (some 2) = .ok (.vint 52)
    ∧ (∃ s', image_dynamic_geom measure0 sC1 = .ok s'
        ∧ s'.definition_height = some 52 ∧ s'.definition_height ≠ some 53) := by
  refine ⟨by decide, by decide, by decide, by decide, ?_⟩
  refine ⟨{ sC1 with
      text_size := some ⌈((sC1.out_dimensions.1 : ℚ) * (17/10)) / ((52 : Int) : ℚ)⌉,
      definition_height := some (pyIntQ (((52 : Int) : ℚ) * sC1.ratio * 1)) },
    rfl, ?_⟩
  have hq : ((52 : Int) : ℚ) * sC1.ratio * 1 = ((52 : Int) : ℚ) := by
    show ((52 : Int) : ℚ) * 1 * 1 = ((52 : Int) : ℚ)
    ring
  have hv : pyIntQ (((52 : Int) : ℚ) * sC1.ratio * 1) = 52 := by
    rw [hq, pyIntQ_nonneg_eq_floor _ (by positivity), Int.floor_intCast]
  rw [show ({ sC1 with
      text_size := some ⌈((sC1.out_dimensions.1 : ℚ) * (17/10)) / ((52 : Int) : ℚ)⌉,
      definition_height := some (pyIntQ (((52 : Int) : ℚ) * sC1.ratio * 1)) }
    : CoreState).definition_height
    = some (pyIntQ (((52 : Int) : ℚ) * sC1.ratio * 1)) from rfl, hv]
  exact ⟨rfl, by decide⟩

/-- C8: after a generation run ends — normally or with an exception raised
inside the `with` block — no path below the temporary `asciipixels`
process directory exists any more: `__exit__` removes the whole tree
unconditionally. -/
theorem C8_cleanup_invariant (parent : FSPath) (body : FS → FS × Option PyError)
    (fs : FS) (p : FSPath)
    (hp : (processDir parent).isPrefixOf p = true) :
    ¬ FS.exists_path (runWithCore parent body fs).1 p := by
  intro hmem
  simp only [runWithCore, coreExitFS, rmtree, FS.exists_path] at hmem
  rw [List.mem_filter] at hmem
  have h2 := hmem.2
  rw [hp] at h2
  simp at h2

theorem C8_witness :
    ((processDir ["home"]).isPrefixOf (processDir ["home"] ++ ["Frames"]) = true)
    ∧ ¬ FS.exists_path
        (runWithCore ["home"] (fun fs => (fs, some .indexError)) []).1
        (processDir ["home"] ++ ["Frames"]) :=
  ⟨by decide,
    C8_cleanup_invariant ["home"] (fun fs => (fs, some .indexError)) []
      (processDir ["home"] ++ ["Frames"]) (by decide)⟩

theorem pyCharAt_ramp (cs : List Char) (p : Nat) (hcs : cs ≠ []) (hp : p ≤ 255) :
    pyCharAt cs ((p * (cs.length - 1)) / 255) = .ok (rampChar cs p) := by
  have hlen : 0 < cs.length := List.length_pos.mpr hcs
  have hidx : (p * (cs.length - 1)) / 255 < cs.length := by
    have h1 : p * (cs.length - 1) ≤ 255 * (cs.length - 1) :=
      Nat.mul_le_mul_right _ hp
    have h2 : (p * (cs.length - 1)) / 255 ≤ (255 * (cs.length - 1)) / 255 :=
      Nat.div_le_div_right h1
    have h3 : (255 * (cs.length - 1)) / 255 = cs.length - 1 := by
      rw [Nat.mul_div_cancel_left _ (by norm_num)]
    omega
  unfold pyCharAt rampChar
  rw [List.getD_eq_get?]
  cases hg : cs.get? ((p * (cs.length - 1)) / 255) with
  | none =>
    rw [List.get?_eq_none] at hg
    omega
  | some c => rfl

theorem rampChar_mem (cs : List Char) (p : Nat) (hcs : cs ≠ []) (hp : p ≤ 255) :
    rampChar cs p ∈ cs := by
  have h := pyCharAt_ramp cs p hcs hp
  unfold pyCharAt at h
  cases hg : cs.get? ((p * (cs.length - 1)) / 255) with
  | none => rw [hg] at h; exact absurd h (by simp)
  | some c =>
    rw [hg] at h
    have hc : c = rampChar cs p := by
      rw [Except.ok.injEq] at h
      exact h
    rw [← hc]
    exact List.get?_mem hg

theorem asciiLoop_mod (cs : List Char) (d : Nat) (a : List Nat) :
    ∀ (k k' : Nat), k % d = k' % d → asciiLoop cs d a k = asciiLoop cs d a k' := by
  induction a with
  | nil => intro k k' _; rfl
  | cons p rest ih =>
    intro k k' hmod
    simp only [asciiLoop]
    cases pyCharAt cs ((p * (cs.length - 1)) / 255) with
    | error e => rfl
    | ok ch =>
      by_cases hd : d = 0
      · simp [hd]
      · simp only [hd, if_false]
        rw [ih (k + 1) (k' + 1) (Nat.ModEq.add_right 1 hmod)]
        rw [hmod]

theorem asciiLoop_row (cs : List Char) (d : Nat) (hd0 : d ≠ 0) (hcs : cs ≠ []) :
    ∀ (a b : List Nat) (j : Nat) (t : List Char),
      a ≠ [] → 0 < j → j + a.length = d + 1 →
      (∀ p ∈ a, p ≤ 255) →
      asciiLoop cs d b (d + 1) = .ok t →
      asciiLoop cs d (a ++ b) j = .ok (a.map (rampChar cs) ++ '\n' :: t) := by
  intro a
  induction a with
  | nil =>
    intro b j t hne _ _ _ _
    exact absurd rfl hne
  | cons p a' ih =>
    intro b j t _ hj hlen hpix hb
    have hp : p ≤ 255 := hpix p (List.mem_cons_self p a')
    by_cases hne' : a' = []
    · subst hne'
      have hjd : j = d := by simp at hlen; omega
      subst hjd
      simp only [List.cons_append, List.nil_append, asciiLoop,
        pyCharAt_ramp cs p hcs hp, if_neg hd0, Nat.mod_self, List.append_eq,
        if_true]
      rw [hb]
      rfl
    · have hlen1 : 1 ≤ a'.length := by
        cases a' with
        | nil => exact absurd rfl hne'
        | cons _ _ => simp
      have hjlt : j < d := by simp at hlen; omega
      have hjmod : j % d ≠ 0 := by
        rw [Nat.mod_eq_of_lt hjlt]
        omega
      simp only [List.cons_append, asciiLoop, pyCharAt_ramp cs p hcs hp,
        if_neg hd0, List.append_eq]
      rw [ih b (j + 1) t hne' (by omega) (by simp at hlen ⊢; omega)
        (fun q hq => hpix q (List.mem_cons_of_mem p hq)) hb]
      simp [hjmod]

theorem chunksOfAux_fuel (d : Nat) :
    ∀ (fuel fuel' : Nat) (l : List α), l.length ≤ fuel → l.length ≤ fuel' →
      chunksOfAux fuel d l = chunksOfAux fuel' d l := by
  intro fuel
  induction fuel with
  | zero =>
    intro fuel' l h _
    have : l = [] := List.eq_nil_of_length_eq_zero (by omega)
    subst this
    cases fuel' <;> rfl
  | succ n ih =>
    intro fuel' l h h'
    cases l with
    | nil => cases fuel' <;> rfl
    | cons x xs =>
      cases fuel' with
      | zero => simp at h'
      | succ m =>
        simp only [chunksOfAux]
        congr 1
        apply ih
        · rw [List.length_drop]
          simp at h
          omega
        · rw [List.length_drop]
          simp at h'
          omega

theorem chunksOf_eq_cons (d : Nat) (hd0 : d ≠ 0) (l : List α) (hne : l ≠ []) :
    chunksOf d l = l.take d :: chunksOf d (l.drop d) := by
  cases l with
  | nil => exact absurd rfl hne
  | cons x xs =>
    show chunksOfAux (x :: xs).length d (x :: xs) = _
    simp only [List.length_cons, chunksOfAux]
    congr 1
    · cases d with
      | zero => exact absurd rfl hd0
      | succ d' => simp [List.take_succ_cons]
    · have hdrop : (x :: xs).drop d = xs.drop (d - 1) := by
        cases d with
        | zero => exact absurd rfl hd0
        | succ d' => simp [List.drop_succ_cons]
      rw [hdrop]
      unfold chunksOf
      apply chunksOfAux_fuel
      · rw [List.length_drop]
        omega
      · exact le_rfl

theorem chunksOf_shape (d : Nat) (hd0 : d ≠ 0) :
    ∀ (h : Nat) (l : List α), l.length = d * h →
      (chunksOf d l).length = h
      ∧ (∀ r ∈ chunksOf d l, r.length = d)
      ∧ (chunksOf d l).join = l := by
  intro h
  induction h with
  | zero =>
    intro l hlen
    have : l = [] := List.eq_nil_of_length_eq_zero (by omega)
    subst this
    refine ⟨rfl, ?_, rfl⟩
    intro r hr
    simp [chunksOf, chunksOfAux] at hr
  | succ m ih =>
    intro l hlen
    rw [Nat.mul_succ] at hlen
    have hne : l ≠ [] := by
      intro hc
      subst hc
      simp at hlen
      omega
    rw [chunksOf_eq_cons d hd0 l hne]
    have hdrop : (l.drop d).length = d * m := by
      rw [List.length_drop]
      omega
    obtain ⟨ihlen, ihrow, ihjoin⟩ := ih (l.drop d) hdrop
    refine ⟨by simp [ihlen], ?_, ?_⟩
    · intro r hr
      rcases List.mem_cons.mp hr with hr1 | hr2
      · subst hr1
        rw [List.length_take]
        omega
      · exact ihrow r hr2
    · rw [show (l.take d :: chunksOf d (l.drop d)).join
          = l.take d ++ (chunksOf d (l.drop d)).join from rfl, ihjoin]
      exact List.take_append_drop d l

theorem asciiLoop_chunks (cs : List Char) (d : Nat) (hd0 : d ≠ 0) (hcs : cs ≠ []) :
    ∀ (h : Nat) (pixels : List Nat),
      (∀ p ∈ pixels, p ≤ 255) → pixels.length = d * h →
      asciiLoop cs d pixels 1
        = .ok (((chunksOf d (pixels.map (rampChar cs))).map
            (fun r => r ++ ['\n'])).join) := by
  intro h
  induction h with
  | zero =>
    intro pixels _ hlen
    have : pixels = [] := List.eq_nil_of_length_eq_zero (by omega)
    subst this
    rfl
  | succ m ih =>
    intro pixels hpix hlen
    rw [Nat.mul_succ] at hlen
    have htake : (pixels.take d).length = d := by
      rw [List.length_take]
      omega
    have hdrop : (pixels.drop d).length = d * m := by
      rw [List.length_drop]
      omega
    have hne : pixels.take d ≠ [] := by
      intro hc
      rw [hc] at htake
      simp at htake
      omega
    have hb : asciiLoop cs d (pixels.drop d) (d + 1)
        = asciiLoop cs d (pixels.drop d) 1 :=
      asciiLoop_mod cs d _ (d + 1) 1 (Nat.add_mod_left d 1)
    have hibody := ih (pixels.drop d)
      (fun p hp => hpix p (List.drop_subset d pixels hp)) hdrop
    conv_lhs => rw [← List.take_append_drop d pixels]
    rw [asciiLoop_row cs d hd0 hcs (pixels.take d) (pixels.drop d) 1 _ hne
      (by omega) (by rw [htake]; omega) (fun q hq => hpix q (List.take_subset d pixels hq))
      (by rw [hb, hibody])]
    have hmapne : pixels.map (rampChar cs) ≠ [] := by
      have hml : (pixels.map (rampChar cs)).length = d * m + d := by
        rw [List.length_map, hlen]
      intro hc
      rw [hc] at hml
      simp at hml
      omega
    rw [chunksOf_eq_cons d hd0 _ hmapne]
    simp only [List.map_cons, List.join_cons]
    rw [← List.map_take, ← List.map_drop]
    simp [List.append_assoc]

/-- C4: for every frame, `generate_ascii_art` produces a text block of
exactly `definition_height` lines of exactly `definition` characters each
(rows separated by a newline emitted after every `definition`
characters), where the row-major sequence of non-newline characters is
exactly the luminance grid mapped through
`ramp[pixel * (len(ramp) - 1) // 255]`, every emitted character being
drawn from the ramp. -/
theorem C4_ascii_art_shape (s : CoreState) (pixels : List Nat)
    (frame : Option Int) (d : Int) (cs : List Char) (dh : Nat)
    (hvid : s.is_video = false)
    (hdef : s.definition.getitem frame = .ok (.vint d))
    (hchars : s.chars.getitem frame = .ok (.vstr cs))
    (hcs : cs ≠ []) (hd : 0 < d)
    (hlen : pixels.length = d.toNat * dh)
    (hpix : ∀ p ∈ pixels, p ≤ 255) :
    generate_ascii_art s pixels frame
      = .ok (((chunksOf d.toNat (pixels.map (rampChar cs))).map
          (fun r => r ++ ['\n'])).join)
    ∧ (chunksOf d.toNat (pixels.map (rampChar cs))).length = dh
    ∧ (∀ r ∈ chunksOf d.toNat (pixels.map (rampChar cs)), r.length = d.toNat)
    ∧ (chunksOf d.toNat (pixels.map (rampChar cs))).join
        = pixels.map (rampChar cs)
    ∧ (∀ r ∈ chunksOf d.toNat (pixels.map (rampChar cs)), ∀ ch ∈ r, ch ∈ cs) := by
  have hd0 : d.toNat ≠ 0 := by omega
  have hmlen : (pixels.map (rampChar cs)).length = d.toNat * dh := by
    rw [List.length_map, hlen]
  obtain ⟨hclen, hcrow, hcjoin⟩ := chunksOf_shape d.toNat hd0 dh _ hmlen
  refine ⟨?_, hclen, hcrow, hcjoin, ?_⟩
  · simp only [generate_ascii_art, hvid, Bool.false_eq_true, false_and, if_false,
      hdef, hchars]
    exact asciiLoop_chunks cs d.toNat hd0 hcs dh pixels hpix hlen
  · intro r hr ch hch
    have hmem : ch ∈ pixels.map (rampChar cs) := by
      rw [← hcjoin]
      exact List.mem_join.mpr ⟨r, hr, hch⟩
    obtain ⟨p, hp, hpc⟩ := List.mem_map.mp hmem
    rw [← hpc]
    exact rampChar_mem cs p hcs (hpix p hp)

theorem C4_witness :
    (sC4w.is_video = false
      ∧ sC4w.definition.getitem none = .ok (.vint 4)
      ∧ sC4w.chars.getitem none = .ok (.vstr rampDefault)
      ∧ rampDefault ≠ [] ∧ (0 : Int) < 4
      ∧ pixelsA.length = (4 : Int).toNat * 4
      ∧ (∀ p ∈ pixelsA, p ≤ 255))
    ∧ (generate_ascii_art sC4w pixelsA none
        = .ok (((chunksOf (4 : Int).toNat (pixelsA.map (rampChar rampDefault))).map
            (fun r => r ++ ['\n'])).join)
      ∧ (chunksOf (4 : Int).toNat (pixelsA.map (rampChar rampDefault))).length = 4
      ∧ (∀ r ∈ chunksOf (4 : Int).toNat (pixelsA.map (rampChar rampDefault)),
          r.length = (4 : Int).toNat)
      ∧ (chunksOf (4 : Int).toNat (pixelsA.map (rampChar rampDefault))).join
          = pixelsA.map (rampChar rampDefault)
      ∧ (∀ r ∈ chunksOf (4 : Int).toNat (pixelsA.map (rampChar rampDefault)),
          ∀ ch ∈ r, ch ∈ rampDefault)) :=
  ⟨⟨rfl, by decide, by decide, by decide, by decide, by decide, by decide⟩,
    C4_ascii_art_shape sC4w pixelsA none 4 rampDefault 4 rfl (by decide) (by decide)
      (by decide) (by decide) (by decide) (by decide)⟩
